import Mathlib

/-!
Shallow embedding of the package reconciliation logic of the
`pakketracker` application (`src/App.tsx`) together with its data model
(`types.ts`).  Pure functions model the state transitions the React
component performs on the `packages` collection: `processParsedResult`
(reconcile), the status toggle, deletion, and the view filter.  The
ambient inputs of the TypeScript code — `new Date().toISOString()` and
the random identifier — are passed in explicitly as `now` and `freshId`.
-/

namespace PakkeTracker

/-- Carrier enumeration from `types.ts`. -/
inductive Carrier where
  | postnord
  | gls
  | dao
  | bring
  | dhl
  | ups
  | fedex
  | other
  deriving DecidableEq, Repr

/-- Package status enumeration from `types.ts`. -/
inductive PackageStatus where
  | inTransit
  | readyForPickup
  | pickedUp
  deriving DecidableEq, Repr

/-- The `Package` interface from `types.ts`. -/
structure Package where
  id : String
  trackingNumber : String
  carrier : Carrier
  sender : String
  status : PackageStatus
  receivedDate : String
  originalText : String
  lastUpdated : String
  deriving DecidableEq, Repr

/-- The `ParseResult` interface from `types.ts`: `trackingNumber` and
`sender` are nullable strings. -/
structure ParseResult where
  trackingNumber : Option String
  carrier : Carrier
  sender : Option String
  status : PackageStatus
  deriving DecidableEq, Repr

/-- JavaScript `a || b` for a nullable string `a` and string default `b`:
`null`, `undefined` and the empty string are falsy, every other string is
returned as is. -/
def jsOrDefault : Option String → String → String
  | none, d => d
  | some s, d => if s = "" then d else s

/-- The merged entry built on the update path of `processParsedResult`
(`App.tsx` lines 42-47): spread of the existing package with `status`,
`sender` and `lastUpdated` overridden. -/
def mergeInto (r : ParseResult) (now : String) (p : Package) : Package :=
  { p with
    status := r.status
    sender := jsOrDefault r.sender p.sender
    lastUpdated := now }

/-- The new entry built on the create path of `processParsedResult`
(`App.tsx` lines 50-59). -/
def mkNewPackage (r : ParseResult) (tn sourceText now freshId : String) :
    Package :=
  { id := freshId
    trackingNumber := tn
    carrier := r.carrier
    sender := jsOrDefault r.sender "Leverandør"
    status := r.status
    receivedDate := now
    originalText := sourceText
    lastUpdated := now }

/-- `findIndex` on `trackingNumber` followed by copy-and-replace at that
index (`App.tsx` lines 38-48), fused into one pass: update the first
package whose `trackingNumber` equals `tn`, or return `none` when no
package matches (`findIndex` returned `-1`). -/
def updateFirstMatching (f : Package → Package) (tn : String) :
    List Package → Option (List Package)
  | [] => none
  | p :: ps =>
    if p.trackingNumber = tn then some (f p :: ps)
    else
      match updateFirstMatching f tn ps with
      | some ps2 => some (p :: ps2)
      | none => none

/-- `processParsedResult` from `App.tsx` lines 36-65 as a pure function:
given the (possibly absent) extraction result, the source text, the
current time, the generated identifier and the current collection, it
returns the new collection and the boolean the handler returns.  The
guard `result && result.trackingNumber` accepts only a present result
with a non-null, non-empty tracking number. -/
def processParsedResult (result : Option ParseResult)
    (sourceText now freshId : String) (packages : List Package) :
    List Package × Bool :=
  match result with
  | none => (packages, false)
  | some r =>
    match r.trackingNumber with
    | none => (packages, false)
    | some tn =>
      if tn = "" then (packages, false)
      else
        match updateFirstMatching (mergeInto r now) tn packages with
        | some updated => (updated, true)
        | none => (mkNewPackage r tn sourceText now freshId :: packages, true)

/-- The status flip of the `onToggleStatus` handler (`App.tsx` line 285):
`PickedUp` goes to `ReadyForPickup`, anything else goes to `PickedUp`. -/
def toggleStatus (s : PackageStatus) : PackageStatus :=
  if s = PackageStatus.pickedUp then PackageStatus.readyForPickup
  else PackageStatus.pickedUp

/-- The `onToggleStatus` handler (`App.tsx` line 285): map over the
collection, flipping the status of the package whose `id` matches and
leaving every other entry untouched. -/
def onToggleStatus (id : String) (packages : List Package) : List Package :=
  packages.map fun p =>
    if p.id = id then { p with status := toggleStatus p.status } else p

/-- The `onDelete` handler (`App.tsx` line 286): keep the packages whose
`id` differs from the given one. -/
def onDelete (id : String) (packages : List Package) : List Package :=
  packages.filter fun p => decide (p.id ≠ id)

/-- The tab type of `App.tsx` line 8. -/
inductive TabType where
  | current
  | history
  | settings
  | map
  deriving DecidableEq, Repr

/-- `filteredPackages` from `App.tsx` lines 106-110: the `current` tab
shows packages whose status is not `PickedUp`, every other tab shows the
packages whose status is `PickedUp`. -/
def filteredPackages (activeTab : TabType) (packages : List Package) :
    List Package :=
  packages.filter fun p =>
    if activeTab = TabType.current then decide (p.status ≠ PackageStatus.pickedUp)
    else decide (p.status = PackageStatus.pickedUp)

/-- A sample package used as concrete input in the evaluation lemmas. -/
def samplePkg (i tn : String) (st : PackageStatus) : Package :=
  { id := i
    trackingNumber := tn
    carrier := Carrier.postnord
    sender := "ACME"
    status := st
    receivedDate := "d0"
    originalText := "o0"
    lastUpdated := "t0" }

/-- The tracking-number uniqueness invariant of the collection. -/
def uniqueTracking (packages : List Package) : Prop :=
  (packages.map Package.trackingNumber).Nodup

theorem jsOrDefault_idem (o : Option String) (d : String) :
    jsOrDefault o (jsOrDefault o d) = jsOrDefault o d := by
  cases o with
  | none => rfl
  | some s =>
    by_cases h : s = "" <;> simp [jsOrDefault, h]

theorem mergeInto_trackingNumber (r : ParseResult) (now : String) (p : Package) :
    (mergeInto r now p).trackingNumber = p.trackingNumber := rfl

theorem mergeInto_idem (r : ParseResult) (now : String) (p : Package) :
    mergeInto r now (mergeInto r now p) = mergeInto r now p := by
  simp [mergeInto, jsOrDefault_idem]

theorem mergeInto_mkNewPackage (r : ParseResult)
    (tn sourceText now freshId : String) :
    mergeInto r now (mkNewPackage r tn sourceText now freshId) =
      mkNewPackage r tn sourceText now freshId := by
  simp [mergeInto, mkNewPackage, jsOrDefault_idem]

theorem updateFirstMatching_of_no_match (f : Package → Package) (tn : String) :
    ∀ l : List Package, (∀ p ∈ l, p.trackingNumber ≠ tn) →
      updateFirstMatching f tn l = none := by
  intro l
  induction l with
  | nil => intro _; rfl
  | cons p ps ih =>
    intro h
    have hp : p.trackingNumber ≠ tn := h p (List.mem_cons_self _ _)
    have hps := ih fun q hq => h q (List.mem_cons_of_mem _ hq)
    simp [updateFirstMatching, hp, hps]

theorem no_match_of_updateFirstMatching (f : Package → Package) (tn : String) :
    ∀ l : List Package, updateFirstMatching f tn l = none →
      ∀ p ∈ l, p.trackingNumber ≠ tn := by
  intro l
  induction l with
  | nil => intro _ p hp; cases hp
  | cons p ps ih =>
    intro h
    by_cases hp : p.trackingNumber = tn
    · simp [updateFirstMatching, hp] at h
    · cases hu : updateFirstMatching f tn ps with
      | some ps2 => simp [updateFirstMatching, hp, hu] at h
      | none =>
        intro q hq
        rcases List.mem_cons.mp hq with rfl | hq2
        · exact hp
        · exact ih hu q hq2

theorem updateFirstMatching_append (f : Package → Package) (tn : String)
    (pre post : List Package) (old : Package)
    (hpre : ∀ p ∈ pre, p.trackingNumber ≠ tn)
    (hold : old.trackingNumber = tn) :
    updateFirstMatching f tn (pre ++ old :: post) =
      some (pre ++ f old :: post) := by
  induction pre with
  | nil => simp [updateFirstMatching, hold]
  | cons q qs ih =>
    have hq : q.trackingNumber ≠ tn := hpre q (List.mem_cons_self _ _)
    have hqs : ∀ p ∈ qs, p.trackingNumber ≠ tn :=
      fun p hp => hpre p (List.mem_cons_of_mem _ hp)
    simp [updateFirstMatching, hq, ih hqs]

theorem updateFirstMatching_eq_some (f : Package → Package) (tn : String) :
    ∀ l l' : List Package, updateFirstMatching f tn l = some l' →
      ∃ pre old post, l = pre ++ old :: post ∧ l' = pre ++ f old :: post ∧
        old.trackingNumber = tn ∧ ∀ p ∈ pre, p.trackingNumber ≠ tn := by
  intro l
  induction l with
  | nil => intro l' h; simp [updateFirstMatching] at h
  | cons p ps ih =>
    intro l' h
    by_cases hp : p.trackingNumber = tn
    · simp only [updateFirstMatching, if_pos hp, Option.some_inj] at h
      exact ⟨[], p, ps, rfl, h.symm, hp, by simp⟩
    · cases hu : updateFirstMatching f tn ps with
      | none => simp [updateFirstMatching, hp, hu] at h
      | some ps2 =>
        simp only [updateFirstMatching, if_neg hp, hu, Option.some_inj] at h
        obtain ⟨pre, old, post, h1, h2, h3, h4⟩ := ih ps2 hu
        refine ⟨p :: pre, old, post, by simp [h1], by simp [← h, h2], h3, ?_⟩
        intro q hq
        rcases List.mem_cons.mp hq with rfl | hq2
        · exact hp
        · exact h4 q hq2

theorem updateFirstMatching_stable (f : Package → Package)
    (hk : ∀ p, (f p).trackingNumber = p.trackingNumber)
    (hf : ∀ p, f (f p) = f p) (tn : String) :
    ∀ l l' : List Package, updateFirstMatching f tn l = some l' →
      updateFirstMatching f tn l' = some l' := by
  intro l
  induction l with
  | nil => intro l' h; simp [updateFirstMatching] at h
  | cons p ps ih =>
    intro l' h
    by_cases hp : p.trackingNumber = tn
    · simp only [updateFirstMatching, if_pos hp, Option.some_inj] at h
      subst h
      have hfp : (f p).trackingNumber = tn := (hk p).trans hp
      simp [updateFirstMatching, hfp, hf p]
    · cases hu : updateFirstMatching f tn ps with
      | none => simp [updateFirstMatching, hp, hu] at h
      | some ps2 =>
        simp only [updateFirstMatching, if_neg hp, hu, Option.some_inj] at h
        subst h
        simp [updateFirstMatching, hp, ih ps2 hu]

theorem updateFirstMatching_map_key (f : Package → Package)
    (hk : ∀ p, (f p).trackingNumber = p.trackingNumber) (tn : String) :
    ∀ l l' : List Package, updateFirstMatching f tn l = some l' →
      l'.map Package.trackingNumber = l.map Package.trackingNumber := by
  intro l
  induction l with
  | nil => intro l' h; simp [updateFirstMatching] at h
  | cons p ps ih =>
    intro l' h
    by_cases hp : p.trackingNumber = tn
    · simp only [updateFirstMatching, if_pos hp, Option.some_inj] at h
      subst h
      simp [hk p]
    · cases hu : updateFirstMatching f tn ps with
      | none => simp [updateFirstMatching, hp, hu] at h
      | some ps2 =>
        simp only [updateFirstMatching, if_neg hp, hu, Option.some_inj] at h
        subst h
        simp [ih ps2 hu]

/-- Claim C1: for every collection and every extraction result that is
absent or has a null or empty `trackingNumber`, reconcile
(`processParsedResult`) returns `accepted = false` and the collection is
exactly the input collection, with no entry added, removed or modified. -/
theorem c1_reject_leaves_collection_unchanged (result : Option ParseResult)
    (sourceText now freshId : String) (packages : List Package)
    (h : result = none ∨ ∃ r, result = some r ∧
      (r.trackingNumber = none ∨ r.trackingNumber = some "")) :
    processParsedResult result sourceText now freshId packages =
      (packages, false) := by
  rcases h with rfl | ⟨r, rfl, h | h⟩
  · rfl
  · simp [processParsedResult, h]
  · simp [processParsedResult, h]

theorem c1_reject_leaves_collection_unchanged_witness :
    processParsedResult
        (some { trackingNumber := some ""
                carrier := Carrier.other
                sender := none
                status := PackageStatus.inTransit })
        "txt" "t0" "id0" [samplePkg "a" "T1" PackageStatus.inTransit] =
      ([samplePkg "a" "T1" PackageStatus.inTransit], false) :=
  c1_reject_leaves_collection_unchanged _ "txt" "t0" "id0" _
    (Or.inr ⟨_, rfl, Or.inr rfl⟩)

/-- Claim C6: the status toggle maps `PickedUp` to `ReadyForPickup` and
maps both `InTransit` and `ReadyForPickup` to `PickedUp`; toggling twice
from `ReadyForPickup` gives `ReadyForPickup` again, and no toggle ever
produces `InTransit` — a binary collapse, not a three-state rotation. -/
theorem c6_toggle_binary_collapse :
    toggleStatus PackageStatus.pickedUp = PackageStatus.readyForPickup ∧
    toggleStatus PackageStatus.inTransit = PackageStatus.pickedUp ∧
    toggleStatus PackageStatus.readyForPickup = PackageStatus.pickedUp ∧
    toggleStatus (toggleStatus PackageStatus.readyForPickup) =
      PackageStatus.readyForPickup ∧
    ∀ s : PackageStatus, toggleStatus s ≠ PackageStatus.inTransit := by
  refine ⟨rfl, rfl, rfl, rfl, ?_⟩
  intro s
  cases s <;> simp [toggleStatus]

/-- Claim C7: the view filter is a pure partition: the `current` view
holds exactly the packages whose status is not `PickedUp`, the `history`
view exactly those whose status is `PickedUp`, both preserve the
collection's order (sublists), and the two view lengths always sum to the
collection's length, so every package lands in exactly one view. -/
theorem c7_view_filter_partition (packages : List Package) :
    (∀ p : Package, p ∈ filteredPackages TabType.current packages ↔
      p ∈ packages ∧ p.status ≠ PackageStatus.pickedUp) ∧
    (∀ p : Package, p ∈ filteredPackages TabType.history packages ↔
      p ∈ packages ∧ p.status = PackageStatus.pickedUp) ∧
    (filteredPackages TabType.current packages).Sublist packages ∧
    (filteredPackages TabType.history packages).Sublist packages ∧
    (filteredPackages TabType.current packages).length +
      (filteredPackages TabType.history packages).length = packages.length := by
  refine ⟨?_, ?_, ?_, ?_, ?_⟩
  · intro p; simp [filteredPackages, List.mem_filter]
  · intro p; simp [filteredPackages, List.mem_filter]
  · exact List.filter_sublist _
  · exact List.filter_sublist _
  · induction packages with
    | nil => rfl
    | cons p ps ih =>
      by_cases h : p.status = PackageStatus.pickedUp <;>
        simp [filteredPackages, List.filter_cons, h] at ih ⊢ <;> omega

/-- Claim C9: the status toggle changes only the `status` field of the
packages whose `id` matches: length and order are unchanged, a package
whose `id` differs is returned identically, and for every package the
`id`, `trackingNumber`, `carrier`, `sender`, `receivedDate`,
`originalText` and in particular `lastUpdated` fields survive the toggle
untouched. -/
theorem c9_toggle_frame (uid : String) (packages : List Package) :
    (onToggleStatus uid packages).length = packages.length ∧
    (∀ (i : Nat) (p : Package), packages[i]? = some p →
      (onToggleStatus uid packages)[i]? =
        some (if p.id = uid then { p with status := toggleStatus p.status }
              else p)) ∧
    (∀ (i : Nat) (p : Package), packages[i]? = some p → p.id ≠ uid →
      (onToggleStatus uid packages)[i]? = some p) ∧
    (∀ (i : Nat) (p q : Package), packages[i]? = some p →
      (onToggleStatus uid packages)[i]? = some q →
      q.id = p.id ∧ q.trackingNumber = p.trackingNumber ∧
      q.carrier = p.carrier ∧ q.sender = p.sender ∧
      q.receivedDate = p.receivedDate ∧ q.originalText = p.originalText ∧
      q.lastUpdated = p.lastUpdated) := by
  refine ⟨List.length_map _ _, ?_, ?_, ?_⟩
  · intro i p hp
    simp [onToggleStatus, List.getElem?_map, hp]
  · intro i p hp hne
    simp [onToggleStatus, List.getElem?_map, hp, hne]
  · intro i p q hp hq
    rw [onToggleStatus, List.getElem?_map, hp] at hq
    simp only [Option.map_some', Option.some_inj] at hq
    subst hq
    by_cases h : p.id = uid <;> simp [h]

theorem c9_toggle_frame_witness :
    (onToggleStatus "a" [samplePkg "a" "T1" PackageStatus.inTransit]).length =
      [samplePkg "a" "T1" PackageStatus.inTransit].length ∧
    (onToggleStatus "a" [samplePkg "a" "T1" PackageStatus.inTransit])[0]? =
      some (if (samplePkg "a" "T1" PackageStatus.inTransit).id = "a"
            then { samplePkg "a" "T1" PackageStatus.inTransit with
                   status := toggleStatus
                     (samplePkg "a" "T1" PackageStatus.inTransit).status }
            else samplePkg "a" "T1" PackageStatus.inTransit) :=
  ⟨(c9_toggle_frame "a" [samplePkg "a" "T1" PackageStatus.inTransit]).1,
   (c9_toggle_frame "a" [samplePkg "a" "T1" PackageStatus.inTransit]).2.1 0
     (samplePkg "a" "T1" PackageStatus.inTransit) rfl⟩

/-- Claim C10: the emptiness test on the tracking number is an exact
empty-string test with no trimming: any non-empty tracking number, a
pure-whitespace string included, is a valid merge key — reconcile
returns `accepted = true` and the resulting collection holds a package
carrying that very string as its `trackingNumber`. -/
theorem c10_whitespace_key_accepted (r : ParseResult)
    (sourceText now freshId : String) (packages : List Package) (tn : String)
    (h : r.trackingNumber = some tn) (hne : tn ≠ "") :
    (processParsedResult (some r) sourceText now freshId packages).2 = true ∧
    ∃ p ∈ (processParsedResult (some r) sourceText now freshId packages).1,
      p.trackingNumber = tn := by
  simp only [processParsedResult, h, if_neg hne]
  cases hm : updateFirstMatching (mergeInto r now) tn packages with
  | none =>
    exact ⟨rfl, mkNewPackage r tn sourceText now freshId,
      List.mem_cons_self _ _, rfl⟩
  | some l2 =>
    obtain ⟨pre, old, post, _, hl2, hkey, _⟩ :=
      updateFirstMatching_eq_some (mergeInto r now) tn packages l2 hm
    refine ⟨rfl, mergeInto r now old, ?_, (mergeInto_trackingNumber r now old).trans hkey⟩
    rw [hl2]
    exact List.mem_append_right _ (List.mem_cons_self _ _)

theorem c10_whitespace_key_accepted_witness :
    ((processParsedResult
        (some { trackingNumber := some " "
                carrier := Carrier.other
                sender := none
                status := PackageStatus.inTransit })
        "src" "t0" "id0" []).2 = true ∧
      ∃ p ∈ (processParsedResult
        (some { trackingNumber := some " "
                carrier := Carrier.other
                sender := none
                status := PackageStatus.inTransit })
        "src" "t0" "id0" []).1, p.trackingNumber = " ") :=
  c10_whitespace_key_accepted _ "src" "t0" "id0" [] " " rfl (by decide)

/-- Claim C2: when the non-empty tracking number matches no existing
package, reconcile accepts and prepends one new package built from the
result verbatim — `trackingNumber`, `carrier`, `status` from the result,
`originalText` the given source text, `receivedDate` and `lastUpdated`
the current time, `id` the freshly generated identifier — while the
original `n` packages follow unchanged in order, giving length `n + 1`. -/
theorem c2_create_path (r : ParseResult) (sourceText now freshId tn : String)
    (packages : List Package)
    (h : r.trackingNumber = some tn) (hne : tn ≠ "")
    (hno : ∀ p ∈ packages, p.trackingNumber ≠ tn) :
    processParsedResult (some r) sourceText now freshId packages =
      ({ id := freshId
         trackingNumber := tn
         carrier := r.carrier
         sender := jsOrDefault r.sender "Leverandør"
         status := r.status
         receivedDate := now
         originalText := sourceText
         lastUpdated := now } :: packages, true) ∧
    (processParsedResult (some r) sourceText now freshId packages).1.length =
      packages.length + 1 := by
  have hnone := updateFirstMatching_of_no_match (mergeInto r now) tn packages hno
  constructor
  · simp [processParsedResult, h, hne, hnone, mkNewPackage]
  · simp [processParsedResult, h, hne, hnone]

theorem c2_create_path_witness :
    processParsedResult
        (some { trackingNumber := some "T2"
                carrier := Carrier.gls
                sender := some "S"
                status := PackageStatus.readyForPickup })
        "src" "t0" "idX" [samplePkg "a" "T1" PackageStatus.inTransit] =
      ({ id := "idX"
         trackingNumber := "T2"
         carrier := Carrier.gls
         sender := jsOrDefault (some "S") "Leverandør"
         status := PackageStatus.readyForPickup
         receivedDate := "t0"
         originalText := "src"
         lastUpdated := "t0" } :: [samplePkg "a" "T1" PackageStatus.inTransit],
       true) :=
  (c2_create_path _ "src" "t0" "idX" "T2" _ rfl (by decide) (by decide)).1

/-- Claim C3: when the non-empty tracking number matches an existing
package, reconcile keeps the collection length, replaces only that
package's `status` (with the result's status) and `lastUpdated` (with
the current time), replaces its `sender` only by a non-null non-empty
result sender, keeps `carrier`, `trackingNumber`, `receivedDate`,
`originalText` and `id` untouched, keeps the package's position, and
leaves every other package identical. -/
theorem c3_update_path (r : ParseResult) (sourceText now freshId tn : String)
    (pre post : List Package) (old : Package)
    (h : r.trackingNumber = some tn) (hne : tn ≠ "")
    (hpre : ∀ p ∈ pre, p.trackingNumber ≠ tn)
    (hold : old.trackingNumber = tn) :
    processParsedResult (some r) sourceText now freshId (pre ++ old :: post) =
      (pre ++ mergeInto r now old :: post, true) ∧
    (pre ++ mergeInto r now old :: post).length =
      (pre ++ old :: post).length ∧
    (mergeInto r now old).status = r.status ∧
    (mergeInto r now old).lastUpdated = now ∧
    ((r.sender = none ∨ r.sender = some "") →
      (mergeInto r now old).sender = old.sender) ∧
    (∀ s : String, r.sender = some s → s ≠ "" →
      (mergeInto r now old).sender = s) ∧
    (mergeInto r now old).carrier = old.carrier ∧
    (mergeInto r now old).trackingNumber = old.trackingNumber ∧
    (mergeInto r now old).receivedDate = old.receivedDate ∧
    (mergeInto r now old).originalText = old.originalText ∧
    (mergeInto r now old).id = old.id := by
  have hm := updateFirstMatching_append (mergeInto r now) tn pre post old
    hpre hold
  refine ⟨by simp [processParsedResult, h, hne, hm], by simp, rfl, rfl,
    ?_, ?_, rfl, rfl, rfl, rfl, rfl⟩
  · rintro (hs | hs) <;> simp [mergeInto, jsOrDefault, hs]
  · intro s hs hsne
    simp [mergeInto, jsOrDefault, hs, hsne]

theorem c3_update_path_witness :
    processParsedResult
        (some { trackingNumber := some "T1"
                carrier := Carrier.gls
                sender := some "NewSender"
                status := PackageStatus.readyForPickup })
        "src" "t0" "idX" [samplePkg "a" "T1" PackageStatus.inTransit] =
      ([mergeInto
          { trackingNumber := some "T1"
            carrier := Carrier.gls
            sender := some "NewSender"
            status := PackageStatus.readyForPickup }
          "t0" (samplePkg "a" "T1" PackageStatus.inTransit)], true) :=
  (c3_update_path _ "src" "t0" "idX" "T1" [] []
    (samplePkg "a" "T1" PackageStatus.inTransit) rfl (by decide)
    (by simp) rfl).1

/-- Claim C4 as stated is false on the code: the create path fills an
absent sender with the Danish placeholder string `"Leverandør"`, not
with the string `"Unknown supplier"`.  Concretely, on the spec's own
scenario (empty collection, tracking number `TNT123`, null sender) the
created package's sender is `"Leverandør"`, which differs from
`"Unknown supplier"`. -/
theorem c4_placeholder_counterexample :
    (processParsedResult
        (some { trackingNumber := some "TNT123"
                carrier := Carrier.gls
                sender := none
                status := PackageStatus.inTransit })
        "hello" "t0" "id0" []).1.map Package.sender = ["Leverandør"] ∧
    "Leverandør" ≠ "Unknown supplier" := by
  exact ⟨rfl, by decide⟩

/-- Claim C4 amended: when the extraction result omits the sender (null
or empty), the package created by the create path has its sender set to
the placeholder string `"Leverandør"`. -/
theorem c4_placeholder_sender (r : ParseResult)
    (sourceText now freshId tn : String) (packages : List Package)
    (hs : r.sender = none ∨ r.sender = some "")
    (h : r.trackingNumber = some tn) (hne : tn ≠ "")
    (hno : ∀ p ∈ packages, p.trackingNumber ≠ tn) :
    ∃ newPkg : Package,
      (processParsedResult (some r) sourceText now freshId packages).1 =
        newPkg :: packages ∧ newPkg.sender = "Leverandør" := by
  have hnone := updateFirstMatching_of_no_match (mergeInto r now) tn packages
    hno
  refine ⟨mkNewPackage r tn sourceText now freshId, ?_, ?_⟩
  · simp [processParsedResult, h, hne, hnone]
  · rcases hs with hs | hs <;> simp [mkNewPackage, jsOrDefault, hs]

theorem c4_placeholder_sender_witness :
    ∃ newPkg : Package,
      (processParsedResult
          (some { trackingNumber := some "TNT123"
                  carrier := Carrier.gls
                  sender := none
                  status := PackageStatus.inTransit })
          "hello" "t0" "id0" []).1 = newPkg :: [] ∧
      newPkg.sender = "Leverandør" :=
  c4_placeholder_sender _ "hello" "t0" "id0" "TNT123" [] (Or.inl rfl) rfl
    (by decide) (by simp)

/-- Claim C5: reconciliation is idempotent when the current-time and
identifier inputs are held fixed — running `processParsedResult` a
second time with the same result and source text on the collection the
first run produced returns that collection unchanged. -/
theorem c5_reconcile_idempotent (result : Option ParseResult)
    (sourceText now freshId : String) (packages : List Package) :
    (processParsedResult result sourceText now freshId
        (processParsedResult result sourceText now freshId packages).1).1 =
      (processParsedResult result sourceText now freshId packages).1 := by
  cases result with
  | none => rfl
  | some r =>
    cases htn : r.trackingNumber with
    | none => simp [processParsedResult, htn]
    | some tn =>
      by_cases hne : tn = ""
      · simp [processParsedResult, htn, hne]
      · cases hm : updateFirstMatching (mergeInto r now) tn packages with
        | some l2 =>
          have h2 := updateFirstMatching_stable (mergeInto r now)
            (fun _ => rfl) (mergeInto_idem r now) tn packages l2 hm
          simp [processParsedResult, htn, hne, hm, h2]
        | none =>
          have hkey : (mkNewPackage r tn sourceText now freshId).trackingNumber
              = tn := rfl
          simp [processParsedResult, htn, hne, hm, updateFirstMatching, hkey,
            mergeInto_mkNewPackage]

/-- Claim C8: tracking-number uniqueness is preserved: from a collection
whose tracking numbers are pairwise distinct, any reconcile call, any
status toggle and any deletion again produce a collection with pairwise
distinct tracking numbers. -/
theorem c8_unique_tracking_invariant (result : Option ParseResult)
    (sourceText now freshId uid : String) (packages : List Package)
    (h : uniqueTracking packages) :
    uniqueTracking
      (processParsedResult result sourceText now freshId packages).1 ∧
    uniqueTracking (onToggleStatus uid packages) ∧
    uniqueTracking (onDelete uid packages) := by
  refine ⟨?_, ?_, ?_⟩
  · cases result with
    | none => exact h
    | some r =>
      cases htn : r.trackingNumber with
      | none => simpa [processParsedResult, htn] using h
      | some tn =>
        by_cases hne : tn = ""
        · simpa [processParsedResult, htn, hne] using h
        · cases hm : updateFirstMatching (mergeInto r now) tn packages with
          | some l2 =>
            have hmap := updateFirstMatching_map_key (mergeInto r now)
              (fun _ => rfl) tn packages l2 hm
            have heq :
                (processParsedResult (some r) sourceText now freshId
                  packages).1 = l2 := by
              simp [processParsedResult, htn, hne, hm]
            rw [heq]
            unfold uniqueTracking at h ⊢
            rw [hmap]
            exact h
          | none =>
            have hno := no_match_of_updateFirstMatching (mergeInto r now) tn
              packages hm
            have heq :
                (processParsedResult (some r) sourceText now freshId
                  packages).1 =
                mkNewPackage r tn sourceText now freshId :: packages := by
              simp [processParsedResult, htn, hne, hm]
            rw [heq]
            unfold uniqueTracking at h ⊢
            rw [List.map_cons, List.nodup_cons]
            refine ⟨?_, h⟩
            intro hmem
            obtain ⟨p, hp, hpeq⟩ := List.mem_map.mp hmem
            exact hno p hp hpeq
  · unfold uniqueTracking at h ⊢
    have key : ∀ l : List Package,
        (onToggleStatus uid l).map Package.trackingNumber =
          l.map Package.trackingNumber := by
      intro l
      induction l with
      | nil => rfl
      | cons p ps ih =>
        by_cases hp : p.id = uid <;>
          simp only [onToggleStatus, List.map_cons] at ih ⊢ <;>
          simp [hp, ih]
    rw [key packages]
    exact h
  · unfold uniqueTracking at h ⊢
    unfold onDelete
    exact List.Nodup.sublist
      ((List.filter_sublist _).map Package.trackingNumber) h

theorem c8_unique_tracking_invariant_witness :
    uniqueTracking (processParsedResult
        (some { trackingNumber := some "T2"
                carrier := Carrier.gls
                sender := some "S"
                status := PackageStatus.readyForPickup })
        "src" "t0" "idX" [samplePkg "a" "T1" PackageStatus.inTransit]).1 ∧
    uniqueTracking
      (onToggleStatus "a" [samplePkg "a" "T1" PackageStatus.inTransit]) ∧
    uniqueTracking
      (onDelete "a" [samplePkg "a" "T1" PackageStatus.inTransit]) :=
  c8_unique_tracking_invariant _ "src" "t0" "idX" "a" _
    (by unfold uniqueTracking; decide)

end PakkeTracker
